import Mathlib

/-!
Formal model of `eeg_models/transforms.py`.

Conventions of the shallow embedding:
* numpy numeric values are rationals (`ℚ`); numpy float-to-int casting is
  truncation toward zero (`truncOfRat`);
* Python exceptions are modelled with `Except PyErr`; a `for` loop that can
  raise is the sequential `exceptMapList`;
* the scipy filter design/application routines and the injected scaler are
  external black boxes (spec section 6); their data-independent behaviour
  (construction-time validation, length preservation, step slicing, the
  2-D input requirement of an sklearn scaler) is modelled, while the
  numeric filtering kernels are abstract function parameters.
-/

/-- numpy dtypes relevant to the module: integer and floating batches. -/
inductive DType where
  | intT
  | floatT
deriving DecidableEq

/-- Python values appearing as labels in `labels_mapping`: integers or strings. -/
inductive PyVal where
  | int (n : ℤ)
  | str (s : String)
deriving DecidableEq

/-- Python exceptions raised by the modelled code paths. -/
inductive PyErr where
  | keyError (v : ℚ)
  | valueError
  | zeroDivisionError
  | shapeError
deriving DecidableEq

/-- Decidable equality of exception-carrying results, for concrete runs. -/
instance {ε α : Type} [DecidableEq ε] [DecidableEq α] : DecidableEq (Except ε α) := fun a b =>
  match a, b with
  | .error e, .error f =>
    if h : e = f then .isTrue (by rw [h]) else .isFalse (by simp [h])
  | .error _, .ok _ => .isFalse (by simp)
  | .ok _, .error _ => .isFalse (by simp)
  | .ok x, .ok y =>
    if h : x = y then .isTrue (by rw [h]) else .isFalse (by simp [h])

/-- numpy float-to-int casting truncates toward zero (int(-1.5) = -1). -/
def truncOfRat (q : ℚ) : ℤ := q.num.tdiv (q.den : ℤ)

/-- Truncation toward zero, returned as a rational value of an int array. -/
def truncQ (q : ℚ) : ℚ := ((truncOfRat q : ℤ) : ℚ)

/-- Writing a computed float value into a numpy array of the given dtype. -/
def castVal : DType → ℚ → ℚ
  | DType.floatT, q => q
  | DType.intT, q => truncQ q

/-- Sequential mapping in the exception monad: models a Python `for` loop that
builds a list of results and aborts on the first exception. -/
def exceptMapList {α β : Type} (f : α → Except PyErr β) : List α → Except PyErr (List β)
  | [] => .ok []
  | a :: rest =>
    match f a with
    | .error e => .error e
    | .ok b =>
      match exceptMapList f rest with
      | .error e => .error e
      | .ok tail => .ok (b :: tail)

/-- The base `Transform.fit`: dummy implementation, returns `self` unchanged
(first component: the object after the call; second: the returned value). -/
def Transform.fit {α β : Type} (self : α) (_batch : β) : α × α := (self, self)

/-- The designed digital filter `self.filter`; the numeric coefficient arrays
`(b, a)` are abstracted by the design inputs that determine them. -/
structure ButterCoeffs where
  order : ℕ
  w1 : ℚ
  w2 : ℚ
deriving DecidableEq

/-- Modelled from the spec: `scipy.signal.butter` with btype bandpass designs
the filter once and fails at once on invalid critical frequencies — invalid
cutoff ordering (highpass ≥ lowpass) or a cutoff at or above Nyquist (a
normalized frequency ≥ 1). -/
def signalButter (order : ℕ) (wn : ℚ × ℚ) : Except PyErr ButterCoeffs :=
  if wn.2 ≤ wn.1 ∨ 1 ≤ wn.1 ∨ 1 ≤ wn.2 then .error .valueError
  else .ok ⟨order, wn.1, wn.2⟩

structure ButterFilter where
  sampling_rate : ℕ
  order : ℕ
  highpass : ℤ
  lowpass : ℤ
  filter : ButterCoeffs
deriving DecidableEq

/-- `ButterFilter.__init__`: stores the four parameters, normalizes both
cutoffs by half the sampling rate and designs the bandpass filter once. -/
def ButterFilter.init (sampling_rate order : ℕ) (highpass lowpass : ℤ) :
    Except PyErr ButterFilter :=
  let normal_cutoff : ℚ × ℚ :=
    ((highpass : ℚ) / ((1 / 2 : ℚ) * (sampling_rate : ℚ)),
     (lowpass : ℚ) / ((1 / 2 : ℚ) * (sampling_rate : ℚ)))
  match signalButter order normal_cutoff with
  | .error e => .error e
  | .ok f => .ok ⟨sampling_rate, order, highpass, lowpass, f⟩

/-- A 2-D numpy array: a dtype and its rows. -/
structure NpMat where
  dtype : DType
  rows : List (List ℚ)
deriving DecidableEq

/-- `ButterFilter.transform`: `out = np.empty_like(batch)` (same dtype and
shape), then `out[:] = [signal.filtfilt(*self.filter, item) for item in batch]`.
The zero-phase filter application `filtfilt` is an abstract parameter; the
whole-array assignment requires the computed row shapes to match `out` and
casts every value to the dtype of `out`. -/
def ButterFilter.transform (filtfilt : ButterCoeffs → List ℚ → List ℚ)
    (bf : ButterFilter) (batch : NpMat) : Except PyErr NpMat :=
  let filtered := batch.rows.map (fun item => filtfilt bf.filter item)
  if filtered.map List.length = batch.rows.map List.length then
    .ok ⟨batch.dtype, filtered.map (List.map (castVal batch.dtype))⟩
  else .error .valueError

/-- `ButterFilter.transform` as a method call returning the object after the
call: the source body assigns nothing to `self`. -/
def ButterFilter.transformS (filtfilt : ButterCoeffs → List ℚ → List ℚ)
    (bf : ButterFilter) (batch : NpMat) : ButterFilter × Except PyErr NpMat :=
  (bf, ButterFilter.transform filtfilt bf batch)

/-- Helper for the numpy step slice `x[::q]` (`q ≥ 1`): the counter is the
distance to the next kept sample. -/
def everyNthAux (q : ℕ) : ℕ → List ℚ → List ℚ
  | _, [] => []
  | 0, a :: rest => a :: everyNthAux q (q - 1) rest
  | k + 1, _ :: rest => everyNthAux q k rest

/-- The numpy step slice `x[::q]`: keeps indices 0, q, 2q, …. -/
def everyNth (q : ℕ) (l : List ℚ) : List ℚ := everyNthAux q 0 l

/-- Modelled from the spec: `scipy.signal.decimate` applies an anti-aliasing
low-pass filter (abstract; length preserving in use) and keeps every `q`-th
sample of the result. -/
def signalDecimate (antialias : List ℚ → List ℚ) (q : ℕ) (item : List ℚ) : List ℚ :=
  everyNth q (antialias item)

structure Decimator where
  factor : ℕ
deriving DecidableEq

/-- `Decimator.transform`: `out = np.empty(len(batch), dtype=np.object)` and
`out[:] = [signal.decimate(item, self.factor) for item in batch]` — an
object-dtype array holds one independent buffer per record, so the output
records may have different lengths. -/
def Decimator.transform (antialias : List ℚ → List ℚ) (d : Decimator)
    (batch : List (List ℚ)) : List (List ℚ) :=
  batch.map (fun item => signalDecimate antialias d.factor item)

/-- `Decimator.transform` as a method call returning the object after the
call: the source body assigns nothing to `self`. -/
def Decimator.transformS (antialias : List ℚ → List ℚ) (d : Decimator)
    (batch : List (List ℚ)) : Decimator × List (List ℚ) :=
  (d, Decimator.transform antialias d batch)

/-- A 1-D or 2-D numpy array, as handed to the wrapped scaler. -/
inductive NpIn where
  | one (v : List ℚ)
  | two (m : List (List ℚ))
deriving DecidableEq

/-- Column `j` of a 2-D array. -/
def colAt (m : List (List ℚ)) (j : ℕ) : List ℚ := m.filterMap (fun row => row[j]?)

/-- numpy transpose of a (rectangular) 2-D array. -/
def transposeM (m : List (List ℚ)) : List (List ℚ) :=
  (List.range (m.headD []).length).map (colAt m)

/-- numpy `.T`: the identity on 1-D arrays, the transpose on 2-D arrays. -/
def NpIn.tr : NpIn → NpIn
  | NpIn.one v => NpIn.one v
  | NpIn.two m => NpIn.two (transposeM m)

/-- Modelled from the spec: the injected scaler capability of
`ChannellwiseScaler` — incremental fit and transform over 2-D matrices of
shape (samples × features), with state type `σ`. -/
structure ScalerCap (σ : Type) where
  partialFit : σ → List (List ℚ) → σ
  transformFn : σ → NpIn → Except PyErr NpIn

structure ChannellwiseScaler (σ : Type) where
  scaler : σ

/-- `ChannellwiseScaler.fit`:
`for signals in batch: self.scaler.partial_fit(signals.T)` then
`return self` (first component: the object after the call; second: the value
returned to the caller). -/
def ChannellwiseScaler.fit {σ : Type} (cap : ScalerCap σ) (c : ChannellwiseScaler σ)
    (batch : List (List (List ℚ))) : ChannellwiseScaler σ × ChannellwiseScaler σ :=
  let s := batch.foldl (fun st signals => cap.partialFit st (transposeM signals)) c.scaler
  (⟨s⟩, ⟨s⟩)

/-- A 2-D (one record, channels × samples) or 3-D (records × channels ×
samples) numpy batch, the two input forms of `ChannellwiseScaler.transform`. -/
inductive NpData where
  | two (rows : List (List ℚ))
  | three (recs : List (List (List ℚ)))
deriving DecidableEq

structure NpArr where
  dtype : DType
  data : NpData
deriving DecidableEq

/-- Loop body of `ChannellwiseScaler.transform` when the batch is 2-D:
`signals` is one channel row (a 1-D array, whose `.T` is itself), and
`scaled[i] = self.scaler.transform(signals.T).T` writes a same-length 1-D
value back with a dtype cast. -/
def scaleRecord1 {σ : Type} (cap : ScalerCap σ) (st : σ) (dt : DType)
    (row : List ℚ) : Except PyErr (List ℚ) :=
  match cap.transformFn st (NpIn.tr (NpIn.one row)) with
  | .error e => .error e
  | .ok r =>
    match NpIn.tr r with
    | NpIn.one v =>
      if v.length = row.length then .ok (v.map (castVal dt)) else .error .valueError
    | NpIn.two _ => .error .valueError

/-- Loop body of `ChannellwiseScaler.transform` when the batch is 3-D:
`signals` is one (channels × samples) record; double transpose scales each
channel separately, and the assignment writes a same-shape 2-D value back
with a dtype cast. -/
def scaleRecord2 {σ : Type} (cap : ScalerCap σ) (st : σ) (dt : DType)
    (m : List (List ℚ)) : Except PyErr (List (List ℚ)) :=
  match cap.transformFn st (NpIn.tr (NpIn.two m)) with
  | .error e => .error e
  | .ok r =>
    match NpIn.tr r with
    | NpIn.two m2 =>
      if m2.map List.length = m.map List.length then
        .ok (m2.map (List.map (castVal dt)))
      else .error .valueError
    | NpIn.one _ => .error .valueError

/-- `ChannellwiseScaler.transform`: `scaled = np.empty_like(batch)` (same
dtype and form), then
`for i, signals in enumerate(batch): scaled[i] = self.scaler.transform(signals.T).T`.
Iterating a 2-D batch yields its 1-D channel rows; iterating a 3-D batch
yields its 2-D records. -/
def ChannellwiseScaler.transform {σ : Type} (cap : ScalerCap σ) (c : ChannellwiseScaler σ)
    (batch : NpArr) : Except PyErr NpArr :=
  match batch.data with
  | NpData.two rows =>
    match exceptMapList (scaleRecord1 cap c.scaler batch.dtype) rows with
    | .error e => .error e
    | .ok rows2 => .ok ⟨batch.dtype, NpData.two rows2⟩
  | NpData.three recs =>
    match exceptMapList (scaleRecord2 cap c.scaler batch.dtype) recs with
    | .error e => .error e
    | .ok recs2 => .ok ⟨batch.dtype, NpData.three recs2⟩

/-- `ChannellwiseScaler.transform` as a method call returning the object after
the call: the source body assigns nothing to `self`. -/
def ChannellwiseScaler.transformS {σ : Type} (cap : ScalerCap σ) (c : ChannellwiseScaler σ)
    (batch : NpArr) : ChannellwiseScaler σ × Except PyErr NpArr :=
  (c, ChannellwiseScaler.transform cap c batch)

structure MarkersTransformer where
  labels_mapping : List (ℚ × PyVal)
  decimation_factor : ℕ
  empty_label : ℚ
deriving DecidableEq

/-- Python integer floor division `a // b`, raising on a zero divisor. -/
def pyFloorDiv (a b : ℕ) : Except PyErr ℕ :=
  if b = 0 then .error .zeroDivisionError else .ok (a / b)

/-- Conversion of one element by `np.array(…, dtype=np.int)`: an integer is
kept, a string label is not a valid integer literal. -/
def PyVal.toIntValue : PyVal → Except PyErr ℤ
  | PyVal.int n => .ok n
  | PyVal.str _ => .error .valueError

def PyVal.isInt : PyVal → Bool
  | PyVal.int _ => true
  | PyVal.str _ => false

/-- The integer payload of a label (default 0 for the impossible case). -/
def PyVal.intValD : PyVal → ℤ
  | PyVal.int n => n
  | PyVal.str _ => 0

/-- The inner loop of `MarkersTransformer.transform` over
`enumerate(markers)` starting at `index`: skip `empty_label` samples,
otherwise compute `index // decimation_factor` and look up
`labels_mapping[label]` (KeyError when absent), collecting events in order. -/
def markersLoop (mt : MarkersTransformer) : ℕ → List ℚ → Except PyErr (List (ℕ × PyVal))
  | _, [] => .ok []
  | index, label :: rest =>
    if label = mt.empty_label then
      markersLoop mt (index + 1) rest
    else
      match pyFloorDiv index mt.decimation_factor with
      | .error e => .error e
      | .ok new_index =>
        match mt.labels_mapping.lookup label with
        | none => .error (.keyError label)
        | some new_label =>
          match markersLoop mt (index + 1) rest with
          | .error e => .error e
          | .ok tail => .ok ((new_index, new_label) :: tail)

/-- `np.array(index_label, dtype=np.int)`: every entry of every pair is
converted to an integer, aborting on the first value that is not one. -/
def npIntArray : List (ℕ × PyVal) → Except PyErr (List (ℤ × ℤ))
  | [] => .ok []
  | p :: rest =>
    match PyVal.toIntValue p.2 with
    | .error e => .error e
    | .ok m =>
      match npIntArray rest with
      | .error e => .error e
      | .ok tail => .ok (((p.1 : ℤ), m) :: tail)

/-- Processing of one marker record: run the event scan, then convert the
collected `(index, label)` pairs to an integer array. -/
def markersRecord (mt : MarkersTransformer) (markers : List ℚ) :
    Except PyErr (List (ℤ × ℤ)) :=
  match markersLoop mt 0 markers with
  | .error e => .error e
  | .ok index_label => npIntArray index_label

/-- `MarkersTransformer.transform`: one converted event array per record. -/
def MarkersTransformer.transform (mt : MarkersTransformer) (batch : List (List ℚ)) :
    Except PyErr (List (List (ℤ × ℤ))) :=
  exceptMapList (markersRecord mt) batch

/-- `MarkersTransformer.transform` as a method call returning the object after
the call: the source body assigns nothing to `self`. -/
def MarkersTransformer.transformS (mt : MarkersTransformer) (batch : List (List ℚ)) :
    MarkersTransformer × Except PyErr (List (List (ℤ × ℤ))) :=
  (mt, MarkersTransformer.transform mt batch)

/-- Does `labels_mapping` map `v` to an integer label? -/
def lookupIsInt (mt : MarkersTransformer) (v : ℚ) : Bool :=
  match mt.labels_mapping.lookup v with
  | some (PyVal.int _) => true
  | _ => false

/-- Mapping every value of a batch, used to state the dtype-cast relation. -/
def npDataMap (f : ℚ → ℚ) : NpData → NpData
  | NpData.two rows => NpData.two (rows.map (List.map f))
  | NpData.three recs => NpData.three (recs.map (List.map (List.map f)))

/-- Modelled from the spec: an sklearn-style scaler instance (the injected
capability): `transform` requires a 2-D (samples × features) matrix and
rejects 1-D input; here the identity scaling, which is fitted and shape
preserving. -/
def sklearnStyleScaler : ScalerCap Unit where
  partialFit := fun s _ => s
  transformFn := fun _ a =>
    match a with
    | NpIn.one _ => .error .shapeError
    | NpIn.two m => .ok (NpIn.two m)

/-- The spec example mapping with string labels, decimation factor 1. -/
def mtStrD1 : MarkersTransformer :=
  ⟨[((2 : ℚ), PyVal.str (r"A")), ((1 : ℚ), PyVal.str (r"B"))], 1, 0⟩

/-- The spec example mapping with string labels, decimation factor 2. -/
def mtStrD2 : MarkersTransformer :=
  ⟨[((2 : ℚ), PyVal.str (r"A")), ((1 : ℚ), PyVal.str (r"B"))], 2, 0⟩

/-- The spec example with integer labels substituted, decimation factor 1. -/
def mtIntD1 : MarkersTransformer :=
  ⟨[((2 : ℚ), PyVal.int 10), ((1 : ℚ), PyVal.int 20)], 1, 0⟩

/-- The spec example with integer labels substituted, decimation factor 2. -/
def mtIntD2 : MarkersTransformer :=
  ⟨[((2 : ℚ), PyVal.int 10), ((1 : ℚ), PyVal.int 20)], 2, 0⟩

/-- A one-entry string-label mapping. -/
def mtStrOne : MarkersTransformer := ⟨[((2 : ℚ), PyVal.str (r"A"))], 1, 0⟩

/-- A one-entry integer-label mapping. -/
def mtIntOne : MarkersTransformer := ⟨[((2 : ℚ), PyVal.int 10)], 1, 0⟩

/-- The concrete result of `ButterFilter.init 250 5 1 30` (the stored
normalized cutoffs are 1/125 and 6/25). -/
def bfW : ButterFilter :=
  ⟨250, 5, 1, 30,
   ⟨5, ((1 : ℤ) : ℚ) / ((1 / 2 : ℚ) * ((250 : ℕ) : ℚ)),
       ((30 : ℤ) : ℚ) / ((1 / 2 : ℚ) * ((250 : ℕ) : ℚ))⟩⟩

theorem exceptMapList_ok_of {α β : Type} (f : α → Except PyErr β) (g : α → β) :
    ∀ l : List α, (∀ a ∈ l, f a = .ok (g a)) → exceptMapList f l = .ok (l.map g) := by
  intro l
  induction l with
  | nil => intro _; rfl
  | cons a rest ih =>
    intro h
    have ha := h a (List.mem_cons_self a rest)
    have hrest := ih (fun b hb => h b (List.mem_cons_of_mem a hb))
    simp [exceptMapList, ha, hrest]

theorem exceptMapList_err {α β : Type} (f : α → Except PyErr β) :
    ∀ (l : List α) (a : α), a ∈ l → (∃ e, f a = .error e) →
      ∃ e2, exceptMapList f l = .error e2 := by
  intro l
  induction l with
  | nil => intro a ha; cases ha
  | cons b rest ih =>
    intro a ha hex
    obtain ⟨e, he⟩ := hex
    cases hb : f b with
    | error e2 => exact ⟨e2, by simp [exceptMapList, hb]⟩
    | ok v =>
      have harest : a ∈ rest := by
        cases ha with
        | head => rw [hb] at he; simp at he
        | tail _ h2 => exact h2
      obtain ⟨e2, h2⟩ := ih a harest ⟨e, he⟩
      exact ⟨e2, by simp [exceptMapList, hb, h2]⟩

theorem exceptMapList_keyErr {α β : Type} (f : α → Except PyErr β) :
    ∀ l : List α,
      (∀ a ∈ l, (∃ v, f a = .ok v) ∨ ∃ w, f a = .error (.keyError w)) →
      (∃ a ∈ l, ∃ e, f a = .error e) →
      ∃ w, exceptMapList f l = .error (.keyError w) := by
  intro l
  induction l with
  | nil => intro _ hbad; obtain ⟨a, ha, _⟩ := hbad; cases ha
  | cons b rest ih =>
    intro hall hbad
    cases hall b (List.mem_cons_self b rest) with
    | inl hok =>
      obtain ⟨v, hv⟩ := hok
      have hbad2 : ∃ a ∈ rest, ∃ e, f a = .error e := by
        obtain ⟨a, ha, e, he⟩ := hbad
        cases ha with
        | head => rw [hv] at he; simp at he
        | tail _ h2 => exact ⟨a, h2, e, he⟩
      obtain ⟨w, hw⟩ := ih (fun a ha => hall a (List.mem_cons_of_mem b ha)) hbad2
      exact ⟨w, by simp [exceptMapList, hv, hw]⟩
    | inr hkey =>
      obtain ⟨w, hw⟩ := hkey
      exact ⟨w, by simp [exceptMapList, hw]⟩

theorem exceptMapList_congr {α β : Type} (f g : α → Except PyErr β) :
    ∀ l : List α, (∀ a ∈ l, f a = g a) → exceptMapList f l = exceptMapList g l := by
  intro l
  induction l with
  | nil => intro _; rfl
  | cons a rest ih =>
    intro h
    simp only [exceptMapList, h a (List.mem_cons_self a rest),
      ih (fun b hb => h b (List.mem_cons_of_mem a hb))]

theorem exceptMapList_map_comm {α β γ : Type} (f : α → Except PyErr β) (g : β → γ) :
    ∀ l : List α,
      exceptMapList (fun a => (f a).map g) l = (exceptMapList f l).map (List.map g) := by
  intro l
  induction l with
  | nil => rfl
  | cons a rest ih =>
    have hstep : exceptMapList (fun a => (f a).map g) (a :: rest) =
        match (f a).map g with
        | .error e => .error e
        | .ok b =>
          match exceptMapList (fun a => (f a).map g) rest with
          | .error e => .error e
          | .ok tail => .ok (b :: tail) := rfl
    have hstep2 : exceptMapList f (a :: rest) =
        match f a with
        | .error e => .error e
        | .ok b =>
          match exceptMapList f rest with
          | .error e => .error e
          | .ok tail => .ok (b :: tail) := rfl
    rw [hstep, hstep2, ih]
    cases f a with
    | error e => rfl
    | ok b =>
      cases exceptMapList f rest with
      | error e => rfl
      | ok tail => rfl

theorem lookup_mem {β : Type} : ∀ (l : List (ℚ × β)) (k : ℚ) (w : β),
    l.lookup k = some w → ∃ k2, (k2, w) ∈ l := by
  intro l
  induction l with
  | nil => intro k w h; cases h
  | cons p rest ih =>
    intro k w h
    obtain ⟨k1, b⟩ := p
    simp only [List.lookup] at h
    cases hc : (k == k1) with
    | true =>
      rw [hc] at h
      simp only [Option.some.injEq] at h
      subst h
      exact ⟨k1, List.mem_cons_self _ _⟩
    | false =>
      rw [hc] at h
      obtain ⟨k2, hm⟩ := ih k w h
      exact ⟨k2, List.mem_cons_of_mem _ hm⟩

theorem lookupIsInt_spec (mt : MarkersTransformer) (v : ℚ)
    (h : lookupIsInt mt v = true) :
    ∃ m : ℤ, mt.labels_mapping.lookup v = some (PyVal.int m) := by
  unfold lookupIsInt at h
  cases hl : mt.labels_mapping.lookup v with
  | none => rw [hl] at h; simp at h
  | some w =>
    cases w with
    | int m => exact ⟨m, rfl⟩
    | str s => rw [hl] at h; simp at h

theorem snd_mem_of_mem_enumFrom {α : Type} :
    ∀ (l : List α) (n : ℕ) (p : ℕ × α), p ∈ List.enumFrom n l → p.2 ∈ l := by
  intro l
  induction l with
  | nil => intro n p h; cases h
  | cons a rest ih =>
    intro n p h
    simp only [List.enumFrom] at h
    cases h with
    | head => exact List.mem_cons_self a rest
    | tail _ h2 => exact List.mem_cons_of_mem a (ih (n + 1) p h2)

theorem filterMap_ext_mem {α β : Type} (f g : α → Option β) :
    ∀ l : List α, (∀ a ∈ l, f a = g a) → l.filterMap f = l.filterMap g := by
  intro l
  induction l with
  | nil => intro _; rfl
  | cons a rest ih =>
    intro h
    rw [List.filterMap_cons, List.filterMap_cons, h a (List.mem_cons_self a rest),
      ih (fun b hb => h b (List.mem_cons_of_mem a hb))]

theorem everyNthAux_length (q : ℕ) (hq : 1 ≤ q) :
    ∀ (l : List ℚ) (k : ℕ), k ≤ q - 1 →
      (everyNthAux q k l).length = (l.length - k + q - 1) / q := by
  intro l
  induction l with
  | nil =>
    intro k _
    simp only [everyNthAux, List.length_nil]
    rw [Nat.div_eq_of_lt (by omega)]
  | cons a rest ih =>
    intro k hk
    cases k with
    | zero =>
      have h1 := ih (q - 1) (le_refl _)
      simp only [everyNthAux, List.length_cons, h1]
      rcases le_or_lt (q - 1) rest.length with hle | hlt
      · have e1 : rest.length - (q - 1) + q - 1 = rest.length := by omega
        have e2 : rest.length + 1 - 0 + q - 1 = rest.length + q := by omega
        rw [e1, e2, Nat.add_div_right _ (by omega)]
      · have e1 : rest.length - (q - 1) + q - 1 = q - 1 := by omega
        have e2 : rest.length + 1 - 0 + q - 1 = rest.length + q := by omega
        rw [e1, e2, Nat.add_div_right _ (by omega), Nat.div_eq_of_lt (by omega),
          Nat.div_eq_of_lt (by omega)]
    | succ k2 =>
      have h1 := ih k2 (by omega)
      simp only [everyNthAux, List.length_cons, h1]
      congr 1
      omega

theorem everyNth_length (q : ℕ) (hq : 1 ≤ q) (l : List ℚ) :
    (everyNth q l).length = (l.length + q - 1) / q := by
  have h := everyNthAux_length q hq l 0 (by omega)
  simpa using h

theorem markersLoop_int (mt : MarkersTransformer) (hfac : 1 ≤ mt.decimation_factor) :
    ∀ (rec : List ℚ) (n : ℕ),
      (∀ v ∈ rec, v ≠ mt.empty_label → lookupIsInt mt v = true) →
      markersLoop mt n rec =
        .ok ((List.enumFrom n rec).filterMap (fun p =>
          if p.2 = mt.empty_label then none
          else
            match mt.labels_mapping.lookup p.2 with
            | some w => some (p.1 / mt.decimation_factor, w)
            | none => none)) := by
  intro rec
  induction rec with
  | nil => intro n _; rfl
  | cons a rest ih =>
    intro n hcov
    have hrest := ih (n + 1) (fun v hv hne => hcov v (List.mem_cons_of_mem a hv) hne)
    by_cases ha : a = mt.empty_label
    · simp [markersLoop, ha, hrest, List.enumFrom]
    · obtain ⟨m, hm⟩ := lookupIsInt_spec mt a (hcov a (List.mem_cons_self a rest) ha)
      have hdiv : pyFloorDiv n mt.decimation_factor = .ok (n / mt.decimation_factor) := by
        unfold pyFloorDiv
        rw [if_neg (by omega)]
      simp [markersLoop, ha, hdiv, hm, hrest, List.enumFrom]

theorem npIntArray_ints :
    ∀ L : List (ℕ × PyVal), (∀ p ∈ L, PyVal.isInt p.2 = true) →
      npIntArray L = .ok (L.map (fun p => ((p.1 : ℤ), PyVal.intValD p.2))) := by
  intro L
  induction L with
  | nil => intro _; rfl
  | cons p rest ih =>
    intro h
    have hp := h p (List.mem_cons_self p rest)
    have hrest := ih (fun b hb => h b (List.mem_cons_of_mem p hb))
    obtain ⟨i, w⟩ := p
    cases w with
    | int m => simp [npIntArray, PyVal.toIntValue, hrest, PyVal.intValD]
    | str s => simp [PyVal.isInt] at hp

theorem markersLoop_err (mt : MarkersTransformer) :
    ∀ (rec : List ℚ) (n : ℕ) (v : ℚ), v ∈ rec → v ≠ mt.empty_label →
      mt.labels_mapping.lookup v = none →
      ∃ e, markersLoop mt n rec = .error e := by
  intro rec
  induction rec with
  | nil => intro n v hv; cases hv
  | cons a rest ih =>
    intro n v hv hne hlk
    by_cases ha : a = mt.empty_label
    · have hvrest : v ∈ rest := by
        cases hv with
        | head => exact absurd ha hne
        | tail _ h2 => exact h2
      obtain ⟨e, he⟩ := ih (n + 1) v hvrest hne hlk
      exact ⟨e, by simp [markersLoop, ha, he]⟩
    · cases hq : pyFloorDiv n mt.decimation_factor with
      | error e => exact ⟨e, by simp [markersLoop, ha, hq]⟩
      | ok ni =>
        cases hl : mt.labels_mapping.lookup a with
        | none => exact ⟨.keyError a, by simp [markersLoop, ha, hq, hl]⟩
        | some w =>
          have hvrest : v ∈ rest := by
            cases hv with
            | head => rw [hlk] at hl; simp at hl
            | tail _ h2 => exact h2
          obtain ⟨e, he⟩ := ih (n + 1) v hvrest hne hlk
          exact ⟨e, by simp [markersLoop, ha, hq, hl, he]⟩

theorem markersLoop_key (mt : MarkersTransformer) (hfac : 1 ≤ mt.decimation_factor)
    (hint : ∀ p ∈ mt.labels_mapping, PyVal.isInt p.2 = true) :
    ∀ (rec : List ℚ) (n : ℕ),
      (∃ L, markersLoop mt n rec = .ok L ∧ ∀ p ∈ L, PyVal.isInt p.2 = true) ∨
      ∃ w, markersLoop mt n rec = .error (.keyError w) := by
  intro rec
  induction rec with
  | nil => intro n; exact Or.inl ⟨[], rfl, by simp⟩
  | cons a rest ih =>
    intro n
    by_cases ha : a = mt.empty_label
    · cases ih (n + 1) with
      | inl h =>
        obtain ⟨L, hL, hI⟩ := h
        exact Or.inl ⟨L, by simp [markersLoop, ha, hL], hI⟩
      | inr h =>
        obtain ⟨w, hw⟩ := h
        exact Or.inr ⟨w, by simp [markersLoop, ha, hw]⟩
    · have hdiv : pyFloorDiv n mt.decimation_factor = .ok (n / mt.decimation_factor) := by
        unfold pyFloorDiv
        rw [if_neg (by omega)]
      cases hl : mt.labels_mapping.lookup a with
      | none => exact Or.inr ⟨a, by simp [markersLoop, ha, hdiv, hl]⟩
      | some w =>
        have hwint : PyVal.isInt w = true := by
          obtain ⟨k2, hm⟩ := lookup_mem mt.labels_mapping a w hl
          exact hint (k2, w) hm
        cases ih (n + 1) with
        | inl h =>
          obtain ⟨L, hL, hI⟩ := h
          refine Or.inl ⟨(n / mt.decimation_factor, w) :: L,
            by simp [markersLoop, ha, hdiv, hl, hL], ?_⟩
          intro p hp
          cases hp with
          | head => exact hwint
          | tail _ h2 => exact hI p h2
        | inr h =>
          obtain ⟨w2, hw2⟩ := h
          exact Or.inr ⟨w2, by simp [markersLoop, ha, hdiv, hl, hw2]⟩

theorem markersRecord_err (mt : MarkersTransformer) (rec : List ℚ) (v : ℚ)
    (hv : v ∈ rec) (hne : v ≠ mt.empty_label)
    (hlk : mt.labels_mapping.lookup v = none) :
    ∃ e, markersRecord mt rec = .error e := by
  obtain ⟨e, he⟩ := markersLoop_err mt rec 0 v hv hne hlk
  exact ⟨e, by simp [markersRecord, he]⟩

theorem markersRecord_shape (mt : MarkersTransformer) (hfac : 1 ≤ mt.decimation_factor)
    (hint : ∀ p ∈ mt.labels_mapping, PyVal.isInt p.2 = true) (rec : List ℚ) :
    (∃ T, markersRecord mt rec = .ok T) ∨
      ∃ w, markersRecord mt rec = .error (.keyError w) := by
  cases markersLoop_key mt hfac hint rec 0 with
  | inl h =>
    obtain ⟨L, hL, hI⟩ := h
    exact Or.inl ⟨L.map (fun p => ((p.1 : ℤ), PyVal.intValD p.2)),
      by simp [markersRecord, hL, npIntArray_ints L hI]⟩
  | inr h =>
    obtain ⟨w, hw⟩ := h
    exact Or.inr ⟨w, by simp [markersRecord, hw]⟩

theorem markersRecord_int (mt : MarkersTransformer) (hfac : 1 ≤ mt.decimation_factor)
    (rec : List ℚ)
    (hcov : ∀ v ∈ rec, v ≠ mt.empty_label → lookupIsInt mt v = true) :
    markersRecord mt rec =
      .ok ((List.enum rec).filterMap (fun p =>
        if p.2 = mt.empty_label then none
        else
          match mt.labels_mapping.lookup p.2 with
          | some (PyVal.int m) => some (((p.1 / mt.decimation_factor : ℕ) : ℤ), m)
          | _ => none)) := by
  have hloop := markersLoop_int mt hfac rec 0 hcov
  have hints : ∀ p ∈ (List.enumFrom 0 rec).filterMap (fun p =>
      if p.2 = mt.empty_label then none
      else
        match mt.labels_mapping.lookup p.2 with
        | some w => some (p.1 / mt.decimation_factor, w)
        | none => none), PyVal.isInt p.2 = true := by
    intro p hp
    rw [List.mem_filterMap] at hp
    obtain ⟨q, hq, hfq⟩ := hp
    by_cases hqe : q.2 = mt.empty_label
    · rw [if_pos hqe] at hfq; simp at hfq
    · rw [if_neg hqe] at hfq
      have hQ := hcov q.2 (snd_mem_of_mem_enumFrom rec 0 q hq) hqe
      obtain ⟨m, hm⟩ := lookupIsInt_spec mt q.2 hQ
      rw [hm] at hfq
      injection hfq with hfq2
      subst hfq2
      simp [PyVal.isInt]
  unfold markersRecord
  simp only [hloop, npIntArray_ints _ hints, List.map_filterMap]
  rw [show List.enum rec = List.enumFrom 0 rec from rfl]
  congr 1
  apply filterMap_ext_mem
  intro q hq
  by_cases hqe : q.2 = mt.empty_label
  · simp [hqe]
  · have hQ := hcov q.2 (snd_mem_of_mem_enumFrom rec 0 q hq) hqe
    obtain ⟨m, hm⟩ := lookupIsInt_spec mt q.2 hQ
    simp [hqe, hm, PyVal.intValD]

theorem butter_transform_ok (filtfilt : ButterCoeffs → List ℚ → List ℚ)
    (hff : ∀ c l, (filtfilt c l).length = l.length) (bf : ButterFilter) (batch : NpMat) :
    ∃ out, ButterFilter.transform filtfilt bf batch = .ok out ∧
      out.dtype = batch.dtype ∧
      out.rows.map List.length = batch.rows.map List.length := by
  have hlen : (batch.rows.map (fun item => filtfilt bf.filter item)).map List.length
      = batch.rows.map List.length := by
    rw [List.map_map]
    apply List.map_congr_left
    intro a _
    exact hff bf.filter a
  refine ⟨⟨batch.dtype,
    (batch.rows.map (fun item => filtfilt bf.filter item)).map
      (List.map (castVal batch.dtype))⟩, ?_, rfl, ?_⟩
  · simp only [ButterFilter.transform]
    rw [if_pos hlen]
  · rw [List.map_map, List.map_map]
    apply List.map_congr_left
    intro a _
    simp [List.length_map, hff bf.filter a]

theorem butter_transform_dtype (filtfilt : ButterCoeffs → List ℚ → List ℚ)
    (bf : ButterFilter) (batch out : NpMat)
    (h : ButterFilter.transform filtfilt bf batch = .ok out) : out.dtype = batch.dtype := by
  simp only [ButterFilter.transform] at h
  split at h
  · injection h with h2
    rw [← h2]
  · simp at h

theorem butter_transform_cast (filtfilt : ButterCoeffs → List ℚ → List ℚ)
    (bf : ButterFilter) (rows : List (List ℚ)) :
    ButterFilter.transform filtfilt bf ⟨DType.intT, rows⟩ =
      (ButterFilter.transform filtfilt bf ⟨DType.floatT, rows⟩).map
        (fun o => ⟨DType.intT, o.rows.map (List.map truncQ)⟩) := by
  simp only [ButterFilter.transform]
  by_cases hc : (rows.map fun item => filtfilt bf.filter item).map List.length
      = rows.map List.length
  · rw [if_pos hc, if_pos hc]
    simp [Except.map, castVal, List.map_map]
  · rw [if_neg hc, if_neg hc]
    rfl

theorem scaleRecord1_cast {σ : Type} (cap : ScalerCap σ) (st : σ) (row : List ℚ) :
    scaleRecord1 cap st DType.intT row =
      (scaleRecord1 cap st DType.floatT row).map (List.map truncQ) := by
  unfold scaleRecord1
  cases cap.transformFn st (NpIn.tr (NpIn.one row)) with
  | error e => rfl
  | ok r =>
    dsimp only
    cases NpIn.tr r with
    | one v =>
      dsimp only
      by_cases hl : v.length = row.length
      · rw [if_pos hl, if_pos hl]
        simp [Except.map, castVal, List.map_map]
      · rw [if_neg hl, if_neg hl]
        rfl
    | two m => rfl

theorem scaleRecord2_cast {σ : Type} (cap : ScalerCap σ) (st : σ) (m : List (List ℚ)) :
    scaleRecord2 cap st DType.intT m =
      (scaleRecord2 cap st DType.floatT m).map (List.map (List.map truncQ)) := by
  unfold scaleRecord2
  cases cap.transformFn st (NpIn.tr (NpIn.two m)) with
  | error e => rfl
  | ok r =>
    dsimp only
    cases NpIn.tr r with
    | one v => rfl
    | two m2 =>
      dsimp only
      by_cases hl : m2.map List.length = m.map List.length
      · rw [if_pos hl, if_pos hl]
        simp [Except.map, castVal, List.map_map]
      · rw [if_neg hl, if_neg hl]
        rfl

theorem channellwise_transform_dtype {σ : Type} (cap : ScalerCap σ)
    (c : ChannellwiseScaler σ) (batch out : NpArr)
    (h : ChannellwiseScaler.transform cap c batch = .ok out) : out.dtype = batch.dtype := by
  obtain ⟨dt, dat⟩ := batch
  cases dat with
  | two rows =>
    simp only [ChannellwiseScaler.transform] at h
    cases hml : exceptMapList (scaleRecord1 cap c.scaler dt) rows with
    | error e => rw [hml] at h; simp at h
    | ok rows2 =>
      rw [hml] at h
      simp only [Except.ok.injEq] at h
      rw [← h]
  | three recs =>
    simp only [ChannellwiseScaler.transform] at h
    cases hml : exceptMapList (scaleRecord2 cap c.scaler dt) recs with
    | error e => rw [hml] at h; simp at h
    | ok recs2 =>
      rw [hml] at h
      simp only [Except.ok.injEq] at h
      rw [← h]

theorem channellwise_transform_cast {σ : Type} (cap : ScalerCap σ)
    (c : ChannellwiseScaler σ) (dat : NpData) :
    ChannellwiseScaler.transform cap c ⟨DType.intT, dat⟩ =
      (ChannellwiseScaler.transform cap c ⟨DType.floatT, dat⟩).map
        (fun o => ⟨DType.intT, npDataMap truncQ o.data⟩) := by
  cases dat with
  | two rows =>
    simp only [ChannellwiseScaler.transform]
    rw [exceptMapList_congr (scaleRecord1 cap c.scaler DType.intT)
      (fun r => (scaleRecord1 cap c.scaler DType.floatT r).map (List.map truncQ)) rows
      (fun r _ => scaleRecord1_cast cap c.scaler r)]
    rw [exceptMapList_map_comm]
    cases exceptMapList (scaleRecord1 cap c.scaler DType.floatT) rows with
    | error e => rfl
    | ok rows2 => rfl
  | three recs =>
    simp only [ChannellwiseScaler.transform]
    rw [exceptMapList_congr (scaleRecord2 cap c.scaler DType.intT)
      (fun r => (scaleRecord2 cap c.scaler DType.floatT r).map (List.map (List.map truncQ))) recs
      (fun r _ => scaleRecord2_cast cap c.scaler r)]
    rw [exceptMapList_map_comm]
    cases exceptMapList (scaleRecord2 cap c.scaler DType.floatT) recs with
    | error e => rfl
    | ok recs2 => rfl

/-- Claim C1 (the claim is the docstring's contract; the code violates it):
evaluating `ChannellwiseScaler.transform` on a single 2-D record
(channels × samples) with a fitted sklearn-style wrapped scaler raises,
because the loop iterates over the channel rows and hands 1-D arrays to the
wrapped scaler's `transform`, which requires 2-D input — instead of
succeeding with an output of the same shape as the docstring and spec say. -/
theorem channellwise_transform_2d_record_fails :
    ChannellwiseScaler.transform sklearnStyleScaler ⟨()⟩
      ⟨DType.floatT, NpData.two [[1, 2, 3], [4, 5, 6]]⟩ = .error .shapeError := by
  decide

/-- Claim C2, counterexample: with labels_mapping {2: "A", 1: "B"},
empty_label 0 and decimation_factor 1, the call on [[0,0,2,0,1,0]] does not
return the event list [(2,"A"),(4,"B")] — the final
`np.array(index_label, dtype=np.int)` conversion fails on the string
labels, so the call raises a ValueError and returns nothing. -/
theorem markers_string_labels_error_d1 :
    MarkersTransformer.transform mtStrD1 [[0, 0, 2, 0, 1, 0]] = .error .valueError ∧
      ∀ out, MarkersTransformer.transform mtStrD1 [[0, 0, 2, 0, 1, 0]] ≠ .ok out := by
  refine ⟨by decide, ?_⟩
  intro out h
  rw [show MarkersTransformer.transform mtStrD1 [[0, 0, 2, 0, 1, 0]]
      = .error .valueError from by decide] at h
  simp at h

/-- Claim C2, amended: with integer labels in place of the strings
(here {2: 10, 1: 20}), empty_label 0 and decimation_factor 1, the call on
the one-record batch [[0,0,2,0,1,0]] returns the single event record
[(2, label of 2), (4, label of 1)]. -/
theorem markers_int_labels_example_d1 :
    MarkersTransformer.transform mtIntD1 [[0, 0, 2, 0, 1, 0]] =
      .ok [[(2, 10), (4, 20)]] := by
  decide

/-- Claim C3: for every (sampling_rate, order, highpass, lowpass) with
highpass ≥ lowpass, or highpass ≥ sampling_rate/2, or lowpass ≥
sampling_rate/2, `ButterFilter.__init__` fails at the filter design and no
object is produced. -/
theorem butter_invalid_cutoffs_raise (sr order : ℕ) (hp lp : ℤ)
    (h : lp ≤ hp ∨ (sr : ℤ) ≤ 2 * hp ∨ (sr : ℤ) ≤ 2 * lp) :
    ∃ e, ButterFilter.init sr order hp lp = .error e := by
  refine ⟨.valueError, ?_⟩
  have hcond : (lp : ℚ) / ((1 / 2 : ℚ) * (sr : ℚ)) ≤ (hp : ℚ) / ((1 / 2 : ℚ) * (sr : ℚ)) ∨
      1 ≤ (hp : ℚ) / ((1 / 2 : ℚ) * (sr : ℚ)) ∨
      1 ≤ (lp : ℚ) / ((1 / 2 : ℚ) * (sr : ℚ)) := by
    rcases Nat.eq_zero_or_pos sr with hz | hpos
    · subst hz
      left
      simp
    · have hhalf : (0 : ℚ) < (1 / 2 : ℚ) * (sr : ℚ) := by
        have : (0 : ℚ) < (sr : ℚ) := by exact_mod_cast hpos
        positivity
      rcases h with h1 | h2 | h3
      · left
        have h1q : (lp : ℚ) ≤ (hp : ℚ) := by exact_mod_cast h1
        exact (div_le_div_iff_of_pos_right hhalf).mpr h1q
      · right
        left
        have h2q : (sr : ℚ) ≤ 2 * (hp : ℚ) := by exact_mod_cast h2
        exact (one_le_div hhalf).mpr (by linarith)
      · right
        right
        have h3q : (sr : ℚ) ≤ 2 * (lp : ℚ) := by exact_mod_cast h3
        exact (one_le_div hhalf).mpr (by linarith)
  simp only [ButterFilter.init, signalButter]
  rw [if_pos hcond]

/-- Claim C3 witness: ButterFilter(sampling_rate=250, order=4, highpass=30,
lowpass=20) has highpass ≥ lowpass and fails at construction. -/
theorem butter_invalid_cutoffs_raise_witness :
    ∃ e, ButterFilter.init 250 4 30 20 = .error e :=
  butter_invalid_cutoffs_raise 250 4 30 20 (Or.inl (by decide))

/-- Claim C4, counterexample: with the spec's string labels {2: "A", 1: "B"}
and decimation_factor 2, the call on [[0,0,2,0,1,0]] does not return the
event record [(1,"A"),(2,"B")]: the `np.array(…, dtype=np.int)` conversion
of the collected events fails on the string labels and the call raises. -/
theorem markers_string_labels_error_d2 :
    MarkersTransformer.transform mtStrD2 [[0, 0, 2, 0, 1, 0]] = .error .valueError ∧
      ∀ out, MarkersTransformer.transform mtStrD2 [[0, 0, 2, 0, 1, 0]] ≠ .ok out := by
  refine ⟨by decide, ?_⟩
  intro out h
  rw [show MarkersTransformer.transform mtStrD2 [[0, 0, 2, 0, 1, 0]]
      = .error .valueError from by decide] at h
  simp at h

/-- Claim C4, amended: for every marker batch and every MarkersTransformer
with decimation_factor ≥ 1 whose labels_mapping covers every non-empty
marker value with an integer label, transform emits, scanning samples in
original order, exactly one event (sample_index // decimation_factor,
labels_mapping[value]) per sample different from empty_label, none for
empty samples, in original sample order. -/
theorem markers_transform_event_spec (mt : MarkersTransformer) (batch : List (List ℚ))
    (hfac : 1 ≤ mt.decimation_factor)
    (hcov : ∀ rec ∈ batch, ∀ v ∈ rec, v ≠ mt.empty_label → lookupIsInt mt v = true) :
    MarkersTransformer.transform mt batch =
      .ok (batch.map (fun rec =>
        (List.enum rec).filterMap (fun p =>
          if p.2 = mt.empty_label then none
          else
            match mt.labels_mapping.lookup p.2 with
            | some (PyVal.int m) => some (((p.1 / mt.decimation_factor : ℕ) : ℤ), m)
            | _ => none))) := by
  unfold MarkersTransformer.transform
  apply exceptMapList_ok_of
  intro rec hrec
  exact markersRecord_int mt hfac rec (hcov rec hrec)

/-- Claim C4 witness: with integer labels {2: 10, 1: 20} and
decimation_factor 2 the batch [[0,0,2,0,1,0]] yields [(1,10),(2,20)] —
integer floor division of the raw indices 2 and 4. -/
theorem markers_transform_event_spec_witness :
    MarkersTransformer.transform mtIntD2 [[0, 0, 2, 0, 1, 0]] =
      .ok [[(1, 10), (2, 20)]] := by
  have h := markers_transform_event_spec mtIntD2 [[0, 0, 2, 0, 1, 0]]
    (by decide) (by decide)
  rw [h]
  rfl

/-- Claim C5, counterexample: the claim says the call fails with a lookup
error, but with labels_mapping {2: "A"} on the batch [[2],[3]] — whose
second record holds the unmapped non-empty value 3 — the first record's
integer-array conversion fails on the string label "A" before the scan
ever reaches the unmapped value, so the raised error is a ValueError, not
a lookup (KeyError) failure. -/
theorem markers_unmapped_error_not_lookup :
    MarkersTransformer.transform mtStrOne [[2], [3]] = .error .valueError ∧
      ∀ w, MarkersTransformer.transform mtStrOne [[2], [3]] ≠ .error (.keyError w) := by
  refine ⟨by decide, ?_⟩
  intro w h
  rw [show MarkersTransformer.transform mtStrOne [[2], [3]]
      = .error .valueError from by decide] at h
  simp at h

/-- Claim C5, amended: for every batch containing a record with a value
v ≠ empty_label absent from labels_mapping, transform fails (the unmapped
value is neither dropped nor defaulted — no output is produced at all);
moreover the failure is a lookup (KeyError) failure whenever
decimation_factor ≥ 1 and every label in labels_mapping is an integer
(otherwise an earlier record's integer-array conversion may fail first). -/
theorem markers_unmapped_value_fails (mt : MarkersTransformer) (batch : List (List ℚ))
    (rec : List ℚ) (v : ℚ) (hrec : rec ∈ batch) (hv : v ∈ rec)
    (hne : v ≠ mt.empty_label) (hlk : mt.labels_mapping.lookup v = none) :
    (∃ e, MarkersTransformer.transform mt batch = .error e) ∧
      (1 ≤ mt.decimation_factor →
        (∀ p ∈ mt.labels_mapping, PyVal.isInt p.2 = true) →
        ∃ w, MarkersTransformer.transform mt batch = .error (.keyError w)) := by
  constructor
  · obtain ⟨e, he⟩ := markersRecord_err mt rec v hv hne hlk
    exact exceptMapList_err (markersRecord mt) batch rec hrec ⟨e, he⟩
  · intro hfac hint
    apply exceptMapList_keyErr
    · intro rec2 _
      exact markersRecord_shape mt hfac hint rec2
    · obtain ⟨e, he⟩ := markersRecord_err mt rec v hv hne hlk
      exact ⟨rec, hrec, e, he⟩

/-- Claim C5 witness: with integer labels {2: 10} the unmapped non-empty
value 3 makes the call fail with a KeyError. -/
theorem markers_unmapped_value_fails_witness :
    ∃ w, MarkersTransformer.transform mtIntOne [[3]] = .error (.keyError w) :=
  (markers_unmapped_value_fails mtIntOne [[3]] [3] 3 (by decide) (by decide)
    (by decide) (by decide)).2 (by decide) (by decide)

/-- Claim C6: for every Decimator with factor ≥ 1 and every batch of 1-D
records (the anti-aliasing filter preserving length), transform returns one
output record per input record, in order, each of length
ceil(input length / factor) — and the records are independent lists, so the
output admits records of differing lengths. -/
theorem decimator_output_lengths (antialias : List ℚ → List ℚ)
    (haf : ∀ l, (antialias l).length = l.length)
    (d : Decimator) (hd : 1 ≤ d.factor) (batch : List (List ℚ)) :
    (Decimator.transform antialias d batch).length = batch.length ∧
      (Decimator.transform antialias d batch).map List.length =
        batch.map (fun rec => (rec.length + d.factor - 1) / d.factor) := by
  constructor
  · simp [Decimator.transform]
  · unfold Decimator.transform
    rw [List.map_map]
    apply List.map_congr_left
    intro rec _
    simp only [Function.comp_apply]
    unfold signalDecimate
    rw [everyNth_length d.factor hd, haf]

/-- Claim C6 witness: factor 2 on records of lengths 3 and 5 gives records
of lengths 2 = ceil(3/2) and 3 = ceil(5/2) — differing output lengths in
one batch. -/
theorem decimator_output_lengths_witness :
    (Decimator.transform (fun l => l) ⟨2⟩ [[1, 2, 3], [1, 2, 3, 4, 5]]).map List.length =
      [2, 3] := by
  have h := (decimator_output_lengths (fun l => l) (fun _ => rfl) ⟨2⟩ (by decide)
    [[1, 2, 3], [1, 2, 3, 4, 5]]).2
  rw [h]
  decide

/-- Claim C7: `ChannellwiseScaler.fit` folds the wrapped scaler's
incremental fit over the batch, so fitting two successive batches leaves
the wrapped scaler exactly in the state of a single fit on their
concatenation (state is accumulated, never reset), and every fit call
returns self. -/
theorem channellwise_fit_accumulates (σ : Type) (cap : ScalerCap σ)
    (c : ChannellwiseScaler σ) (b1 b2 : List (List (List ℚ))) :
    (ChannellwiseScaler.fit cap (ChannellwiseScaler.fit cap c b1).1 b2).1 =
        (ChannellwiseScaler.fit cap c (b1 ++ b2)).1 ∧
      ∀ b : List (List (List ℚ)),
        (ChannellwiseScaler.fit cap c b).2 = (ChannellwiseScaler.fit cap c b).1 := by
  constructor
  · simp [ChannellwiseScaler.fit, List.foldl_append]
  · intro b
    rfl

/-- Claim C8: for every sampling_rate > 0, order > 0 and cutoffs with
highpass < lowpass < sampling_rate/2, construction succeeds, and transform
(with the length-preserving zero-phase filter) succeeds on every batch of
1-D records, preserving the dtype and the length of every record. -/
theorem butter_valid_construction_transform (sr order : ℕ) (hp lp : ℤ)
    (hsr : 0 < sr) (_hord : 0 < order) (h1 : hp < lp) (h2 : 2 * lp < (sr : ℤ)) :
    ∃ bf, ButterFilter.init sr order hp lp = .ok bf ∧
      ∀ filtfilt : ButterCoeffs → List ℚ → List ℚ,
        (∀ c l, (filtfilt c l).length = l.length) →
        ∀ batch : NpMat, ∃ out, ButterFilter.transform filtfilt bf batch = .ok out ∧
          out.dtype = batch.dtype ∧
          out.rows.map List.length = batch.rows.map List.length := by
  have hhalf : (0 : ℚ) < (1 / 2 : ℚ) * (sr : ℚ) := by
    have : (0 : ℚ) < (sr : ℚ) := by exact_mod_cast hsr
    positivity
  have hcond : ¬((lp : ℚ) / ((1 / 2 : ℚ) * (sr : ℚ)) ≤ (hp : ℚ) / ((1 / 2 : ℚ) * (sr : ℚ)) ∨
      1 ≤ (hp : ℚ) / ((1 / 2 : ℚ) * (sr : ℚ)) ∨
      1 ≤ (lp : ℚ) / ((1 / 2 : ℚ) * (sr : ℚ))) := by
    push_neg
    have h1q : (hp : ℚ) < (lp : ℚ) := by exact_mod_cast h1
    have h2q : 2 * (lp : ℚ) < (sr : ℚ) := by exact_mod_cast h2
    refine ⟨?_, ?_, ?_⟩
    · exact (div_lt_div_iff_of_pos_right hhalf).mpr h1q
    · exact (div_lt_one hhalf).mpr (by linarith)
    · exact (div_lt_one hhalf).mpr (by linarith)
  refine ⟨⟨sr, order, hp, lp,
      ⟨order, (hp : ℚ) / ((1 / 2 : ℚ) * (sr : ℚ)), (lp : ℚ) / ((1 / 2 : ℚ) * (sr : ℚ))⟩⟩,
    ?_, ?_⟩
  · simp only [ButterFilter.init, signalButter]
    rw [if_neg hcond]
  · intro filtfilt hff batch
    exact butter_transform_ok filtfilt hff _ batch

/-- Claim C8 witness: ButterFilter(250, 5, highpass=1, lowpass=30) is
constructed and its transform keeps the length of a 3-sample record. -/
theorem butter_valid_construction_transform_witness :
    ∃ bf out, ButterFilter.init 250 5 1 30 = .ok bf ∧
      ButterFilter.transform (fun _ l => l) bf ⟨DType.floatT, [[1, 2, 3]]⟩ = .ok out ∧
      out.dtype = DType.floatT ∧ out.rows.map List.length = [3] := by
  obtain ⟨bf, hinit, htr⟩ := butter_valid_construction_transform 250 5 1 30
    (by decide) (by decide) (by decide) (by decide)
  obtain ⟨out, hok, hdt, hlen⟩ := htr (fun _ l => l) (fun _ _ => rfl)
    ⟨DType.floatT, [[1, 2, 3]]⟩
  refine ⟨bf, out, hinit, hok, hdt, ?_⟩
  rw [hlen]
  rfl

/-- Claim C9: the filter coefficients of a constructed ButterFilter are the
ones designed once at construction from the stored parameters, and no
transform or fit call mutates any constructor-set state of ButterFilter,
Decimator, MarkersTransformer or ChannellwiseScaler — the object returned
by each method call is the object it was called on. -/
theorem constructor_state_immutable (sr order : ℕ) (hp lp : ℤ) (bf : ButterFilter)
    (h : ButterFilter.init sr order hp lp = .ok bf) :
    signalButter order
        ((hp : ℚ) / ((1 / 2 : ℚ) * (sr : ℚ)), (lp : ℚ) / ((1 / 2 : ℚ) * (sr : ℚ)))
      = .ok bf.filter ∧
    (∀ filtfilt batch, (ButterFilter.transformS filtfilt bf batch).1 = bf) ∧
    (∀ batch : NpMat, Transform.fit bf batch = (bf, bf)) ∧
    (∀ antialias (d : Decimator) batch, (Decimator.transformS antialias d batch).1 = d) ∧
    (∀ (mt : MarkersTransformer) batch, (MarkersTransformer.transformS mt batch).1 = mt) ∧
    (∀ (σ : Type) (cap : ScalerCap σ) (c : ChannellwiseScaler σ) batch,
      (ChannellwiseScaler.transformS cap c batch).1 = c) := by
  refine ⟨?_, fun _ _ => rfl, fun _ => rfl, fun _ _ _ => rfl, fun _ _ => rfl,
    fun _ _ _ _ => rfl⟩
  have h2 := h
  simp only [ButterFilter.init] at h2
  cases hb : signalButter order
      ((hp : ℚ) / ((1 / 2 : ℚ) * (sr : ℚ)), (lp : ℚ) / ((1 / 2 : ℚ) * (sr : ℚ))) with
  | error e => rw [hb] at h2; simp at h2
  | ok f =>
    rw [hb] at h2
    simp only [Except.ok.injEq] at h2
    rw [← h2]

/-- Claim C9 witness: a concrete constructed filter and markers transformer
are returned unchanged by their transform calls. -/
theorem constructor_state_immutable_witness :
    (ButterFilter.transformS (fun _ l => l) bfW ⟨DType.floatT, [[1, 2]]⟩).1 = bfW ∧
      (MarkersTransformer.transformS mtIntD1 [[0, 2]]).1 = mtIntD1 := by
  have hinit : ButterFilter.init 250 5 1 30 = .ok bfW := by
    simp only [ButterFilter.init, signalButter, bfW]
    norm_num
  have h := constructor_state_immutable 250 5 1 30 bfW hinit
  exact ⟨h.2.1 (fun _ l => l) ⟨DType.floatT, [[1, 2]]⟩, h.2.2.2.2.1 mtIntD1 [[0, 2]]⟩

/-- Claim C10: `ButterFilter.transform` and `ChannellwiseScaler.transform`
allocate their output with `np.empty_like(batch)`, so the output dtype
always equals the input dtype, and on an integer-dtype batch every computed
value is written back truncated toward zero — the integer run equals the
float run with all values truncated. -/
theorem empty_like_dtype_truncation :
    (∀ filtfilt (bf : ButterFilter) (batch out : NpMat),
        ButterFilter.transform filtfilt bf batch = .ok out → out.dtype = batch.dtype) ∧
    (∀ filtfilt (bf : ButterFilter) (rows : List (List ℚ)),
        ButterFilter.transform filtfilt bf ⟨DType.intT, rows⟩ =
          (ButterFilter.transform filtfilt bf ⟨DType.floatT, rows⟩).map
            (fun o => ⟨DType.intT, o.rows.map (List.map truncQ)⟩)) ∧
    (∀ (σ : Type) (cap : ScalerCap σ) (c : ChannellwiseScaler σ) (batch out : NpArr),
        ChannellwiseScaler.transform cap c batch = .ok out → out.dtype = batch.dtype) ∧
    (∀ (σ : Type) (cap : ScalerCap σ) (c : ChannellwiseScaler σ) (dat : NpData),
        ChannellwiseScaler.transform cap c ⟨DType.intT, dat⟩ =
          (ChannellwiseScaler.transform cap c ⟨DType.floatT, dat⟩).map
            (fun o => ⟨DType.intT, npDataMap truncQ o.data⟩)) :=
  ⟨fun filtfilt bf batch out h => butter_transform_dtype filtfilt bf batch out h,
   fun filtfilt bf rows => butter_transform_cast filtfilt bf rows,
   fun _ cap c batch out h => channellwise_transform_dtype cap c batch out h,
   fun _ cap c dat => channellwise_transform_cast cap c dat⟩

/-- Claim C10 witness: the channel-wise scaling of a one-record 3-D float
batch succeeds with the input dtype preserved. -/
theorem empty_like_dtype_truncation_witness :
    (NpArr.mk DType.floatT (NpData.three [[[1, 2], [3, 4]]])).dtype = DType.floatT :=
  empty_like_dtype_truncation.2.2.1 Unit sklearnStyleScaler ⟨()⟩
    ⟨DType.floatT, NpData.three [[[1, 2], [3, 4]]]⟩
    ⟨DType.floatT, NpData.three [[[1, 2], [3, 4]]]⟩ (by decide)
